import Mathlib

/-!
Shallow embedding of the Orthanc worklist plugin
(`plugins/worklist_model.py`, `plugins/worklist-with-mpps.py`,
`plugins/emr_api.py`).

The relational store (SQLite via SQLAlchemy) is modelled as lists of rows;
each engine call is a pure function from the store to a result and the
updated store, matching the per-call session/commit discipline of the
source.  External collaborators (the EMR ODBC connection, the Korean
romanizer package, the clock and the DICOM UID generator) are passed in as
explicit oracle parameters, since their code is outside this repository.
Machine strings are modelled through the `List Char` view of `String`.
-/

/-- Helper modelling the Python truthiness test `not x` for an optional
string column value: `None` and the empty string are falsy. -/
def strFalsy : Option String → Bool
  | none => true
  | some s => s.data.isEmpty

/-- Helper modelling the Python truthiness test for an optional integer
column value: `None` and `0` are falsy. -/
def intFalsy : Option Int → Bool
  | none => true
  | some n => n == 0

/-- Model of the Python `str.upper()` call on the ASCII letters that occur
in the protocol status strings compared by the plugin. -/
def pyUpper (s : String) : String :=
  ⟨s.data.map Char.toUpper⟩

/-- Whitespace test backing the model of the Python `str.strip()` call. -/
def isPySpace (c : Char) : Bool :=
  c == ' ' || c == '\t' || c == '\n' || c == '\r'

/-- Model of the Python `str.strip()` call (drop leading and trailing
whitespace). -/
def pyStrip (s : String) : String :=
  ⟨((s.data.dropWhile isPySpace).reverse.dropWhile isPySpace).reverse⟩

/-- Model of the Python `str.zfill(width)` call: pad with zeros on the
left up to `width`, keeping a leading sign in front of the padding. -/
def pyZfill (s : String) (width : Nat) : String :=
  if width ≤ s.data.length then s
  else
    match s.data with
    | '-' :: rest => ⟨'-' :: List.replicate (width - s.data.length) '0' ++ rest⟩
    | '+' :: rest => ⟨'+' :: List.replicate (width - s.data.length) '0' ++ rest⟩
    | l => ⟨List.replicate (width - s.data.length) '0' ++ l⟩

/-- Row of the `patients` table (`worklist_model.Patient`). -/
structure Patient where
  patient_id : String
  patient_name : String
  patient_eng_name : String
  birth_date : String
  sex : String
deriving Repr, DecidableEq

/-- Row of the `worklist_items` table (`worklist_model.WorklistItem`). -/
structure WorklistItem where
  patient_id : String
  accession_number : String
  appointment_date : String
  appointment_time : String
  modality : String
  aet : Option String
  study_instance_uid : Option String
  status : String
  emr_order_seq : Option Int
deriving Repr, DecidableEq

/-- Row of the `mpps_tracking` table (`worklist_model.MPPSTracking`).
Timestamps are abstract clock ticks supplied by the caller, standing for
`datetime.datetime.now()`. -/
structure MPPSTracking where
  sop_instance_uid : String
  accession_number : String
  study_instance_uid : String
  modality : String
  status : String
  start_time : Int
  end_time : Option Int
deriving Repr, DecidableEq

/-- The persistent store: the four tables of the SQLite database.  The
`modality_aets` table (`worklist_model.ModalityAET`) is a list of
(modality, aet) pairs. -/
structure Store where
  patients : List Patient
  worklist_items : List WorklistItem
  mpps_tracking : List MPPSTracking
  modality_aets : List (String × String)
deriving Repr, DecidableEq

/-- Model of `worklist_model.has_korean`: does the text contain a
character in the Hangul syllable block (U+AC00 to U+D7A3)? -/
def has_korean (text : String) : Bool :=
  text.data.any fun c =>
    decide ('가'.toNat ≤ c.toNat) && decide (c.toNat ≤ '힣'.toNat)

/-- Model of the Python expression building the spaced form of the name in
`translate_korean_to_english_name`:
`''.join([char + ' ' for char in korean_name]).strip()`. -/
def spaced_name (s : String) : String :=
  pyStrip ⟨(s.data.map fun c => [c, ' ']).flatten⟩

/-- Model of `worklist_model.translate_korean_to_english_name`.  The
`korean_romanizer` package is outside this repository, so the call
`Romanizer(x).romanize()` is an oracle `romanize`; `none` stands for the
call raising, in which case the source catches the exception and falls
back to the original name. -/
def translate_korean_to_english_name (romanize : String → Option String)
    (korean_name : String) : String :=
  if !(has_korean korean_name) then korean_name
  else
    match romanize (spaced_name korean_name) with
    | some r => pyUpper r
    | none => korean_name

/-- Replace the first element satisfying `p` by `f` of it, modelling an
SQLAlchemy `query(...).first()` row mutation followed by a commit. -/
def updateFirstItem (p : α → Bool) (f : α → α) : List α → List α
  | [] => []
  | x :: xs => if p x then f x :: xs else x :: updateFirstItem p f xs

/-- Row shape returned by `get_worklist_items`: the dictionary built from
the WorklistItem columns joined with the Patient columns. -/
structure WorklistRow where
  accession_number : String
  appointment_date : String
  appointment_time : String
  modality : String
  study_instance_uid : Option String
  aet : Option String
  patient_id : String
  patient_name : String
  patient_eng_name : String
  birth_date : String
  sex : String
deriving Repr, DecidableEq

/-- Build one joined row from a worklist item and its patient. -/
def mkWorklistRow (w : WorklistItem) (p : Patient) : WorklistRow :=
  { accession_number := w.accession_number
    appointment_date := w.appointment_date
    appointment_time := w.appointment_time
    modality := w.modality
    study_instance_uid := w.study_instance_uid
    aet := w.aet
    patient_id := p.patient_id
    patient_name := p.patient_name
    patient_eng_name := p.patient_eng_name
    birth_date := p.birth_date
    sex := p.sex }

/-- Filter applied by `get_worklist_items` to the worklist rows: the fixed
`status == SCHEDULED` condition plus the three optional predicates, with
the Python truthiness guards of the source (`if accession_number and
accession_number != ...`, `if date:`, `if modality:`). -/
def worklistItemFilter (modality date accession_number : Option String)
    (w : WorklistItem) : Bool :=
  w.status == "SCHEDULED"
  && (if !(strFalsy accession_number) && accession_number != some "*"
      then w.accession_number == accession_number.getD "" else true)
  && (if !(strFalsy date) then w.appointment_date == date.getD "" else true)
  && (if !(strFalsy modality) then w.modality == modality.getD "" else true)

/-- Model of `worklist_model.get_worklist_items`: query the SCHEDULED
worklist items joined with their Patient (inner join on `patient_id`),
filtered by the optional modality, date and accession number. -/
def get_worklist_items (store : Store)
    (modality date accession_number : Option String) : List WorklistRow :=
  (store.worklist_items.filter (worklistItemFilter modality date accession_number)).filterMap
    fun w => (store.patients.find? fun p => p.patient_id == w.patient_id).map (mkWorklistRow w)

/-- Model of `worklist_model.record_mpps_in_progress`.  Returns the
success flag and the updated store.  The best-effort EMR status push
(`emr_api.update_order_status`) touches only the external EMR database,
never the local store, and its failure is swallowed by the source, so it
has no effect in the model. -/
def record_mpps_in_progress (now : Int) (store : Store)
    (sop_instance_uid modality accession_number study_instance_uid : String) :
    Bool × Store :=
  match store.worklist_items.find? (fun w => w.accession_number == accession_number) with
  | none => (false, store)
  | some _ =>
    let items := updateFirstItem (fun w => w.accession_number == accession_number)
      (fun w => { w with status := "IN PROGRESS" }) store.worklist_items
    let mpps : MPPSTracking :=
      { sop_instance_uid := sop_instance_uid
        accession_number := accession_number
        study_instance_uid := study_instance_uid
        modality := modality
        status := "IN PROGRESS"
        start_time := now
        end_time := none }
    (true, { store with worklist_items := items,
                        mpps_tracking := store.mpps_tracking ++ [mpps] })

/-- Model of `worklist_model.record_mpps_completed`.  Returns the
`(success, accession_number)` pair of the source and the updated store. -/
def record_mpps_completed (now : Int) (store : Store)
    (sop_instance_uid : String) : (Bool × Option String) × Store :=
  match store.mpps_tracking.find? (fun t => t.sop_instance_uid == sop_instance_uid) with
  | none => ((false, none), store)
  | some mpps =>
    let accession_number := mpps.accession_number
    let tracking := updateFirstItem (fun t => t.sop_instance_uid == sop_instance_uid)
      (fun t => { t with status := "COMPLETED", end_time := some now }) store.mpps_tracking
    let items :=
      match store.worklist_items.find? (fun w => w.accession_number == accession_number) with
      | none => store.worklist_items
      | some _ =>
        updateFirstItem (fun w => w.accession_number == accession_number)
          (fun w => { w with status := "COMPLETED" }) store.worklist_items
    ((true, some accession_number),
      { store with worklist_items := items, mpps_tracking := tracking })

/-- Model of `worklist_model.update_study_instance_uid`. -/
def update_study_instance_uid (store : Store)
    (accession_number study_instance_uid : String) : Bool × Store :=
  match store.worklist_items.find? (fun w => w.accession_number == accession_number) with
  | none => (false, store)
  | some _ =>
    let items := updateFirstItem (fun w => w.accession_number == accession_number)
      (fun w => { w with study_instance_uid := some study_instance_uid })
      store.worklist_items
    (true, { store with worklist_items := items })

/-- Model of `worklist_model.get_aets_for_modality`. -/
def get_aets_for_modality (store : Store) (modality : String) : List String :=
  (store.modality_aets.filter (fun m => m.1 == modality)).map (fun m => m.2)

/-- Order timestamp value of the `PcsOdrDtm` column: either a structured
datetime (modelled by its `%Y%m%d` and `%H%M%S` renderings, which is all
the source reads from it) or a raw string still to be parsed. -/
inductive OdrDtm where
  | dt (date time : String)
  | str (s : String)
deriving Repr, DecidableEq

/-- Python truthiness for the optional `PcsOdrDtm` value: `None` and the
empty string are falsy, a structured datetime is always truthy. -/
def dtmFalsy : Option OdrDtm → Bool
  | none => true
  | some (.dt _ _) => false
  | some (.str s) => s.data.isEmpty

/-- Row of the external `PcsInf` table as fetched by `emr_api` (one
dictionary per row; an `Option` field stands for a NULL column value). -/
structure EmrOrder where
  PcsOdrSeq : Option Int
  PcsOdrDtm : Option OdrDtm
  PcsUntCod : Option String
  PcsPatNam : Option String
  PcsChtNum : Option String
  PcsBirDte : Option String
  PcsSexTyp : Option String
  PcsDelFlg : String
deriving Repr, DecidableEq

/-- Descending comparison on `PcsOdrSeq` used by the `ORDER BY PcsOdrSeq
DESC` clause of `fetch_new_orders`; SQL NULLs sort last. -/
def keyGe (a b : EmrOrder) : Bool :=
  match a.PcsOdrSeq, b.PcsOdrSeq with
  | some x, some y => decide (y ≤ x)
  | some _, none => true
  | none, some _ => false
  | none, none => true

/-- Propositional form of `keyGe`, the sort relation of the fetch query. -/
def OrderGe (a b : EmrOrder) : Prop := keyGe a b = true

instance : DecidableRel OrderGe :=
  fun a b => inferInstanceAs (Decidable (keyGe a b = true))

instance : IsTotal EmrOrder OrderGe where
  total a b := by
    unfold OrderGe keyGe
    rcases a.PcsOdrSeq with _ | x <;> rcases b.PcsOdrSeq with _ | y <;> simp <;> omega

instance : IsTrans EmrOrder OrderGe where
  trans a b c := by
    unfold OrderGe keyGe
    rcases a.PcsOdrSeq with _ | x <;> rcases b.PcsOdrSeq with _ | y <;>
      rcases c.PcsOdrSeq with _ | z <;> simp <;> omega

/-- The `WHERE` clause of `fetch_new_orders` beyond `PcsDelFlg`: when a
cursor was passed, keep only rows with `PcsOdrSeq > cursor` (a NULL
sequence never satisfies the SQL comparison). -/
def seqNewer (last : Option Int) (o : EmrOrder) : Bool :=
  match last with
  | none => true
  | some c =>
    match o.PcsOdrSeq with
    | some s => decide (c < s)
    | none => false

/-- Model of `emr_api.fetch_new_orders`: `SELECT TOP 5 ... FROM PcsInf
WHERE PcsDelFlg = N [AND PcsOdrSeq > cursor] ORDER BY PcsOdrSeq DESC`. -/
def fetch_new_orders (table : List EmrOrder) (last_order_seq : Option Int) :
    List EmrOrder :=
  ((table.filter fun o => o.PcsDelFlg == "N" && seqNewer last_order_seq o).insertionSort
    OrderGe).take 5

/-- Oracles used by the synchronization engine: the romanizer package, the
`datetime.strptime` parser for the compact order-timestamp format (which
returns the formatted date and time components, or `none` when parsing
fails) and the current date and time used as the parse fall-back. -/
structure SyncEnv where
  romanize : String → Option String
  parse_odr_dtm : String → Option (String × String)
  now_date : String
  now_time : String

/-- Required-field test opening the per-order loop of `sync_emr_orders`:
`not order.get(PcsChtNum) or not order.get(PcsPatNam) or
not order.get(PcsOdrDtm) or not order.get(PcsOdrSeq)`. -/
def orderIncomplete (o : EmrOrder) : Bool :=
  strFalsy o.PcsChtNum || strFalsy o.PcsPatNam || dtmFalsy o.PcsOdrDtm
    || intFalsy o.PcsOdrSeq

/-- Appointment date and time derived from the order timestamp: a
structured datetime is split into its components, a string is parsed with
the compact format, and on parse failure the current date and time are
substituted. -/
def formatOdrDtm (env : SyncEnv) : Option OdrDtm → String × String
  | some (.dt d t) => (d, t)
  | some (.str s) =>
    match env.parse_odr_dtm s with
    | some dt => dt
    | none => (env.now_date, env.now_time)
  | none => (env.now_date, env.now_time)

/-- Accession number derived from the order sequence:
`str(order[PcsOdrSeq]).zfill(8)`. -/
def orderAccessionNumber (seq : Int) : String :=
  pyZfill (toString seq) 8

/-- Patient row created when an order references an unknown patient
identifier. -/
def mkPatientOfOrder (env : SyncEnv) (o : EmrOrder) : Patient :=
  { patient_id := o.PcsChtNum.getD ""
    patient_name := o.PcsPatNam.getD ""
    patient_eng_name :=
      translate_korean_to_english_name env.romanize (o.PcsPatNam.getD "")
    birth_date := o.PcsBirDte.getD ""
    sex := o.PcsSexTyp.getD "" }

/-- Worklist item built for a complete, not-yet-known order: modality
defaults to OT, the first configured AET for the modality is assigned if
any, status starts at SCHEDULED and the EMR order sequence is recorded. -/
def mkWorklistItemOfOrder (env : SyncEnv) (modality_aets : List (String × String))
    (o : EmrOrder) : WorklistItem :=
  let dtp := formatOdrDtm env o.PcsOdrDtm
  let modality := o.PcsUntCod.getD "OT"
  let aets := (modality_aets.filter (fun m => m.1 == modality)).map (fun m => m.2)
  { patient_id := o.PcsChtNum.getD ""
    accession_number := orderAccessionNumber (o.PcsOdrSeq.getD 0)
    appointment_date := dtp.1
    appointment_time := dtp.2
    modality := modality
    aet := aets.head?
    study_instance_uid := none
    status := "SCHEDULED"
    emr_order_seq := some (o.PcsOdrSeq.getD 0) }

/-- Mutable state of the per-order loop of `sync_emr_orders`: the visible
patient rows (committed rows plus rows already flushed by this batch), the
worklist items added to the session but not yet committed, and the counter
of created items. -/
structure SyncState where
  patients : List Patient
  pending : List WorklistItem
  count : Nat
deriving Repr, DecidableEq

/-- One iteration of the per-order loop of `sync_emr_orders`.  The
duplicate-accession check queries the database, which with the
`autoflush=False` session of the source sees the committed worklist rows
(`committed`), not the adds still pending in the session. -/
def processOrder (env : SyncEnv) (modality_aets : List (String × String))
    (committed : List WorklistItem) (st : SyncState) (o : EmrOrder) : SyncState :=
  if orderIncomplete o then st
  else
    let patients :=
      match st.patients.find? (fun p => p.patient_id == o.PcsChtNum.getD "") with
      | some _ => st.patients
      | none => st.patients ++ [mkPatientOfOrder env o]
    let accession_number := orderAccessionNumber (o.PcsOdrSeq.getD 0)
    if (committed.find? fun w => w.accession_number == accession_number).isSome then
      { st with patients := patients }
    else
      { patients := patients
        pending := st.pending ++ [mkWorklistItemOfOrder env modality_aets o]
        count := st.count + 1 }

/-- Maximum of a list of integers (the `ORDER BY ... DESC ... first()`
cursor query of `sync_emr_orders`). -/
def listMaxInt : List Int → Option Int
  | [] => none
  | x :: xs =>
    match listMaxInt xs with
    | none => some x
    | some m => some (max x m)

/-- Cursor: the largest EMR order sequence carried by any worklist item. -/
def emrCursor (items : List WorklistItem) : Option Int :=
  listMaxInt (items.filterMap (fun w => w.emr_order_seq))

/-- Commit of the pending session adds, checked against the UNIQUE
constraint on `worklist_items.accession_number`: each pending row is
inserted in turn and the whole commit fails (`none`, the transaction is
rolled back) if an insert collides with a row already in the table. -/
def insertAllUnique (committed : List WorklistItem) :
    List WorklistItem → Option (List WorklistItem)
  | [] => some committed
  | w :: ws =>
    if committed.any (fun v => v.accession_number == w.accession_number) then none
    else insertAllUnique (committed ++ [w]) ws

/-- Model of `worklist_model.sync_emr_orders`: compute the cursor, fetch
the new orders, run the per-order loop, commit, and return the count of
created items (0 with an unchanged store when the commit fails, matching
the outer exception handler of the source). -/
def sync_emr_orders (env : SyncEnv) (table : List EmrOrder) (store : Store) :
    Nat × Store :=
  let last_seq := emrCursor store.worklist_items
  let new_orders := fetch_new_orders table last_seq
  let st := new_orders.foldl
    (processOrder env store.modality_aets store.worklist_items)
    { patients := store.patients, pending := [], count := 0 }
  match insertAllUnique store.worklist_items st.pending with
  | some items =>
    (st.count, { store with patients := st.patients, worklist_items := items })
  | none => (0, store)

/-- Nested item of the `ScheduledStepAttributesSequence` of an N-CREATE
attribute list; a `none` field stands for an absent DICOM attribute, whose
access in the source raises. -/
structure MppsSchedAttr where
  AccessionNumber : Option String
  StudyInstanceUID : Option String
deriving Repr, DecidableEq

/-- The N-CREATE attribute list and N-SET modification list, restricted to
the attributes the handlers read. -/
structure MppsAttrList where
  PerformedProcedureStepStatus : Option String
  Modality : Option String
  ScheduledStepAttributesSequence : Option (List MppsSchedAttr)
deriving Repr, DecidableEq

/-- One attribute of a `Dataset.update(other)` call: an attribute present
in `other` overrides the stored one. -/
def pickAttr (b a : Option α) : Option α :=
  match b with
  | some x => some x
  | none => a

/-- Model of `ds.update(mod_list)` on the tracked attribute list. -/
def updateAttrList (a b : MppsAttrList) : MppsAttrList :=
  { PerformedProcedureStepStatus :=
      pickAttr b.PerformedProcedureStepStatus a.PerformedProcedureStepStatus
    Modality := pickAttr b.Modality a.Modality
    ScheduledStepAttributesSequence :=
      pickAttr b.ScheduledStepAttributesSequence a.ScheduledStepAttributesSequence }

/-- SOP class UID of Modality Performed Procedure Step, assigned to the
dataset constructed by the N-CREATE handler. -/
def mppsSopClassUid : String := "1.2.840.10008.3.1.2.3.3"

/-- Dataset built by the N-CREATE handler and stored in the
managed-instance table. -/
structure MppsDataset where
  SOPClassUID : String
  SOPInstanceUID : String
  attrs : MppsAttrList
deriving Repr, DecidableEq

/-- Result of the N-CREATE handler: the returned protocol status and
dataset, plus the updated managed-instance table and store. -/
structure NCreateResult where
  status : Nat
  ds : Option MppsDataset
  managed : List (String × MppsDataset)
  store : Store
deriving Repr, DecidableEq

/-- Result of the N-SET handler. -/
structure NSetResult where
  status : Nat
  ds : Option MppsDataset
  managed : List (String × MppsDataset)
  store : Store
deriving Repr, DecidableEq

/-- Model of `handle_create` (the `evt.EVT_N_CREATE` handler).  The four
validations run in source order; on the success path the dataset is
registered in the managed-instance table before the scheduling attributes
are extracted, so an extraction failure (an absent attribute raises) still
reaches the final `return 0x0000, ds` with the instance registered, and a
`record_mpps_in_progress` failure is only logged. -/
def handle_create (now : Int) (managed : List (String × MppsDataset))
    (store : Store) (affectedSopInstanceUid : Option String)
    (attr_list : MppsAttrList) : NCreateResult :=
  match affectedSopInstanceUid with
  | none => { status := 0x0106, ds := none, managed := managed, store := store }
  | some uid =>
    if (managed.find? fun p => p.1 == uid).isSome then
      { status := 0x0111, ds := none, managed := managed, store := store }
    else
      match attr_list.PerformedProcedureStepStatus with
      | none => { status := 0x0120, ds := none, managed := managed, store := store }
      | some stat =>
        if pyUpper stat != "IN PROGRESS" then
          { status := 0x0106, ds := none, managed := managed, store := store }
        else
          let ds : MppsDataset :=
            { SOPClassUID := mppsSopClassUid, SOPInstanceUID := uid, attrs := attr_list }
          let managed1 := managed ++ [(uid, ds)]
          match attr_list.Modality, attr_list.ScheduledStepAttributesSequence with
          | some modality, some (first :: _) =>
            match first.AccessionNumber, first.StudyInstanceUID with
            | some accession_number, some study_instance_uid =>
              let r := record_mpps_in_progress now store uid modality
                accession_number study_instance_uid
              { status := 0x0000, ds := some ds, managed := managed1, store := r.2 }
            | _, _ =>
              { status := 0x0000, ds := some ds, managed := managed1, store := store }
          | _, _ =>
            { status := 0x0000, ds := some ds, managed := managed1, store := store }

/-- Model of `handle_set` (the `evt.EVT_N_SET` handler): unknown step
instances fail with 0x0112; otherwise the completion is recorded in the
database (its failure only logged), the stored dataset is updated with the
modification list, and 0x0000 is returned with the updated dataset. -/
def handle_set (now : Int) (managed : List (String × MppsDataset))
    (store : Store) (requestedSopInstanceUid : Option String)
    (mod_list : MppsAttrList) : NSetResult :=
  match requestedSopInstanceUid with
  | none => { status := 0x0112, ds := none, managed := managed, store := store }
  | some uid =>
    match managed.find? (fun p => p.1 == uid) with
    | none => { status := 0x0112, ds := none, managed := managed, store := store }
    | some entry =>
      let r := record_mpps_completed now store uid
      let ds1 : MppsDataset :=
        { entry.2 with attrs := updateAttrList entry.2.attrs mod_list }
      { status := 0x0000
        ds := some ds1
        managed := updateFirstItem (fun p => p.1 == uid) (fun p => (p.1, ds1)) managed
        store := r.2 }

/-- First item of the `ScheduledProcedureStepSequence` of a C-FIND
request. -/
structure SpsRequestAttr where
  ScheduledProcedureStepStartDate : Option String
  Modality : Option String
deriving Repr, DecidableEq

/-- The C-FIND request identifier, restricted to the attributes
`find_worklist` reads. -/
structure FindRequest where
  ScheduledProcedureStepSequence : Option (List SpsRequestAttr)
  AccessionNumber : Option String
deriving Repr, DecidableEq

/-- Modality and date filters extracted from the request (both default to
no constraint when the sequence is absent or empty). -/
def extractSpsFilters (req : FindRequest) : Option String × Option String :=
  match req.ScheduledProcedureStepSequence with
  | some (first :: _) => (first.Modality, first.ScheduledProcedureStepStartDate)
  | _ => (none, none)

/-- Scheduled-procedure-step record nested in each produced worklist
dataset. -/
structure SpsOutput where
  Modality : String
  ScheduledStationAETitle : Option String
  ScheduledProcedureStepStartDate : String
  ScheduledProcedureStepStartTime : String
  ScheduledPerformingPhysicianName : String
  ScheduledProcedureStepDescription : String
deriving Repr, DecidableEq

/-- Worklist dataset produced for one matching row by `find_worklist`. -/
structure WorklistDataset where
  PatientName : String
  PatientID : String
  SpecificCharacterSet : String
  PatientBirthDate : String
  PatientSex : String
  sps : SpsOutput
  AccessionNumber : String
  StudyInstanceUID : String
  StudyID : String
deriving Repr, DecidableEq

/-- Oracles of the C-FIND pipeline: the synchronization oracles, the
external EMR table read by the embedded sync call, and `generate_uid`
modelled as a fresh-UID source indexed by the number of UIDs already
generated in the call. -/
structure FindEnv where
  sync : SyncEnv
  emr_table : List EmrOrder
  generate_uid : Nat → String

/-- Build the dataset for one joined row, generating and persisting a
study instance UID when the row has none (the write happens here, while
the row is turned into a dataset). -/
def buildWorklistObject (env : FindEnv) (item : WorklistRow) (store : Store)
    (uidCount : Nat) : WorklistDataset × Store × Nat :=
  let patientName :=
    if item.modality == "US" then item.patient_eng_name else item.patient_name
  let sps : SpsOutput :=
    { Modality := item.modality
      ScheduledStationAETitle := item.aet
      ScheduledProcedureStepStartDate := item.appointment_date
      ScheduledProcedureStepStartTime := item.appointment_time
      ScheduledPerformingPhysicianName := ""
      ScheduledProcedureStepDescription := "" }
  match item.study_instance_uid with
  | some u =>
    ({ PatientName := patientName
       PatientID := item.patient_id
       SpecificCharacterSet := "ISO_IR 192"
       PatientBirthDate := item.birth_date
       PatientSex := item.sex
       sps := sps
       AccessionNumber := item.accession_number
       StudyInstanceUID := u
       StudyID := item.accession_number }, store, uidCount)
  | none =>
    let u := env.generate_uid uidCount
    let r := update_study_instance_uid store item.accession_number u
    ({ PatientName := patientName
       PatientID := item.patient_id
       SpecificCharacterSet := "ISO_IR 192"
       PatientBirthDate := item.birth_date
       PatientSex := item.sex
       sps := sps
       AccessionNumber := item.accession_number
       StudyInstanceUID := u
       StudyID := item.accession_number }, r.2, uidCount + 1)

/-- The `for item in db_items` loop of `find_worklist`: build every
dataset, threading the store (study-UID writes) and the UID counter. -/
def buildWorklistObjects (env : FindEnv) :
    List WorklistRow → Store → Nat → List WorklistDataset × Store × Nat
  | [], store, c => ([], store, c)
  | item :: rest, store, c =>
    let r := buildWorklistObject env item store c
    let rs := buildWorklistObjects env rest r.2.1 r.2.2
    (r.1 :: rs.1, rs.2.1, rs.2.2)

/-- The rows `find_worklist` reads from the database: the store after the
embedded sync call, queried with the filters of the request. -/
def findRows (env : FindEnv) (store : Store) (req : FindRequest) :
    List WorklistRow :=
  let store1 := (sync_emr_orders env.sync env.emr_table store).2
  let f := extractSpsFilters req
  get_worklist_items store1 f.1 f.2 (some (req.AccessionNumber.getD "*"))

/-- Model of `find_worklist`: sync with the EMR first (best effort), query
the matching rows, and build the full list of datasets eagerly, performing
every study-UID persistence write in the process. -/
def find_worklist (env : FindEnv) (store : Store) (req : FindRequest) :
    List WorklistDataset × Store × Nat :=
  let store1 := (sync_emr_orders env.sync env.emr_table store).2
  buildWorklistObjects env (findRows env store req) store1 0

/-- Model of `handle_find`, the C-FIND generator, as a function of how
many responses the caller consumes.  A generator body only starts running
on the first `next()` call, so consuming nothing leaves the store
untouched; the first consumption runs `find_worklist` to completion
(performing all writes) before the first pending response is yielded, and
a caller abandoning after `consumed` responses sees exactly the first
`consumed` pending responses. -/
def handle_find (env : FindEnv) (store : Store) (req : FindRequest)
    (consumed : Nat) : List (Nat × Option WorklistDataset) × Store :=
  if consumed == 0 then ([], store)
  else
    let r := find_worklist env store req
    if consumed ≤ r.1.length then
      ((r.1.take consumed).map (fun d => (0xFF00, some d)), r.2.1)
    else
      (r.1.map (fun d => (0xFF00, some d)) ++ [(0x0000, none)], r.2.1)

/-- Model of `handle_echo`: success, no state change. -/
def handle_echo : Nat := 0x0000

/-! Generic helper lemmas -/

theorem updateFirstItem_map_eq {α β : Type} (p : α → Bool) (f : α → α) (g : α → β)
    (h : ∀ x, g (f x) = g x) : ∀ l : List α, (updateFirstItem p f l).map g = l.map g := by
  intro l
  induction l with
  | nil => rfl
  | cons x xs ih =>
    unfold updateFirstItem
    by_cases hp : p x <;> simp [hp, ih, h]

theorem insertAllUnique_some {committed ws r} :
    insertAllUnique committed ws = some r → r = committed ++ ws := by
  induction ws generalizing committed with
  | nil => intro h; simp [insertAllUnique] at h; simp [h]
  | cons w ws ih =>
    intro h
    unfold insertAllUnique at h
    by_cases hc : committed.any (fun v => v.accession_number == w.accession_number)
    · simp [hc] at h
    · simp [hc] at h
      have := ih h
      simp [this]

/-! Claim C7 -/

/-- C7: transliteration returns inputs without Hangul characters unchanged,
and on any internal romanizer failure it falls back to the original input;
as a Lean function it is deterministic and side-effect-free by
construction. -/
theorem C7_transliterate_pure (romanize : String → Option String) (name : String) :
    (has_korean name = false → translate_korean_to_english_name romanize name = name)
    ∧ (romanize (spaced_name name) = none →
        translate_korean_to_english_name romanize name = name) := by
  constructor
  · intro h
    simp [translate_korean_to_english_name, h]
  · intro h
    unfold translate_korean_to_english_name
    by_cases hk : has_korean name <;> simp [hk, h]

/-- C7 witness: the concrete evaluation of the claim on "SMITH". -/
theorem C7_transliterate_pure_witness :
    has_korean "SMITH" = false
    ∧ translate_korean_to_english_name (fun _ => some "smith") "SMITH" = "SMITH" :=
  ⟨by decide, (C7_transliterate_pure (fun _ => some "smith") "SMITH").1 (by decide)⟩

/-! Claim C3 -/

/-- Status code demanded by the claim for the start operation, written in
the precedence order of the claim: 0x0106 when the step instance
identifier is absent, 0x0111 when already tracked, 0x0120 when the status
attribute is missing, 0x0106 when the status is not case-insensitively
"in progress", else 0x0000. -/
def specCreateStatus (managed : List (String × MppsDataset))
    (affectedSopInstanceUid : Option String) (attr_list : MppsAttrList) : Nat :=
  match affectedSopInstanceUid with
  | none => 0x0106
  | some uid =>
    if (managed.find? fun p => p.1 == uid).isSome then 0x0111
    else
      match attr_list.PerformedProcedureStepStatus with
      | none => 0x0120
      | some stat =>
        if !(pyUpper stat == pyUpper "in progress") then 0x0106 else 0x0000

/-- An empty store, used by concrete witness evaluations. -/
def emptyStore : Store :=
  { patients := [], worklist_items := [], mpps_tracking := [], modality_aets := [] }

/-- An attribute list with no attributes, used by concrete witness
evaluations. -/
def emptyAttrList : MppsAttrList :=
  { PerformedProcedureStepStatus := none, Modality := none,
    ScheduledStepAttributesSequence := none }

/-- C3: the start operation returns exactly the status codes of the
claimed table in the claimed precedence, returning the constructed step
record exactly on success. -/
theorem C3_create_status_codes (now : Int) (managed : List (String × MppsDataset))
    (store : Store) (req : Option String) (attrs : MppsAttrList) :
    (handle_create now managed store req attrs).status = specCreateStatus managed req attrs
    ∧ ((handle_create now managed store req attrs).status = 0x0000 →
        ∃ uid, req = some uid ∧ (handle_create now managed store req attrs).ds =
          some { SOPClassUID := mppsSopClassUid, SOPInstanceUID := uid, attrs := attrs })
    ∧ ((handle_create now managed store req attrs).status ≠ 0x0000 →
        (handle_create now managed store req attrs).ds = none) := by
  have hlit : pyUpper "in progress" = "IN PROGRESS" := by decide
  rcases req with _ | uid
  · simp [handle_create, specCreateStatus]
  · unfold handle_create specCreateStatus
    by_cases hdup : (managed.find? fun p => p.1 == uid).isSome
    · simp [hdup]
    · rcases hstat : attrs.PerformedProcedureStepStatus with _ | stat
      · simp [hdup, hstat]
      · by_cases hip : pyUpper stat = "IN PROGRESS"
        · rcases hmod : attrs.Modality with _ | modality <;>
            rcases hseq : attrs.ScheduledStepAttributesSequence with _ | (_ | ⟨first, rest⟩) <;>
            simp_all [bne] <;>
            rcases first.AccessionNumber with _ | acc <;>
            rcases first.StudyInstanceUID with _ | suid <;>
            simp_all
        · simp [hdup, hstat, bne, hlit, hip]

/-- C3 witness: concrete evaluation of a status-table row (absent step
instance identifier). -/
theorem C3_create_status_codes_witness :
    (handle_create 0 [] emptyStore none emptyAttrList).status = 0x0106 := by
  have h := (C3_create_status_codes 0 [] emptyStore none emptyAttrList).1
  rw [h]
  decide

/-! Claim C4 -/

/-- Lookup-failure condition of the complete operation: the requested step
instance identifier (possibly absent, which the Python `in` test also
treats as unknown) is not a key of the managed-instance table. -/
def setInstanceUnknown (managed : List (String × MppsDataset))
    (requestedSopInstanceUid : Option String) : Bool :=
  match requestedSopInstanceUid with
  | none => true
  | some uid => (managed.find? fun p => p.1 == uid).isNone

/-- C4: the complete operation fails with 0x0112 exactly when the step
instance identifier is not tracked; for a tracked identifier it returns
0x0000 with the stored record updated by the modifications, and a failed
`record_mpps_completed` persistence lookup (no tracking row for the
identifier) leaves the store unchanged and is not surfaced. -/
theorem C4_set_status_codes (now : Int) (managed : List (String × MppsDataset))
    (store : Store) (req : Option String) (mod_list : MppsAttrList) :
    ((handle_set now managed store req mod_list).status = 0x0112
      ↔ setInstanceUnknown managed req = true)
    ∧ (∀ uid entry, req = some uid →
        managed.find? (fun p => p.1 == uid) = some entry →
        (handle_set now managed store req mod_list).status = 0x0000
        ∧ (handle_set now managed store req mod_list).ds =
            some { entry.2 with attrs := updateAttrList entry.2.attrs mod_list })
    ∧ (∀ uid, req = some uid →
        (managed.find? fun p => p.1 == uid).isSome →
        (store.mpps_tracking.find? fun t => t.sop_instance_uid == uid) = none →
        (handle_set now managed store req mod_list).status = 0x0000
        ∧ (handle_set now managed store req mod_list).store = store) := by
  refine ⟨?_, ?_, ?_⟩
  · rcases req with _ | uid
    · simp [handle_set, setInstanceUnknown]
    · unfold handle_set setInstanceUnknown
      rcases hfind : managed.find? (fun p => p.1 == uid) with _ | entry
      · simp [hfind]
      · simp [hfind]
  · intro uid entry hreq hfind
    subst hreq
    simp [handle_set, hfind]
  · intro uid hreq hfind hmpps
    subst hreq
    rcases hf : managed.find? (fun p => p.1 == uid) with _ | entry
    · rw [hf] at hfind; simp at hfind
    · simp [handle_set, hf, record_mpps_completed, hmpps]

/-- C4 witness: concrete evaluation establishing both directions on a
one-entry table with no tracking row. -/
theorem C4_set_status_codes_witness :
    (handle_set 0 [] emptyStore (some "1.2.3") emptyAttrList).status = 0x0112
    ∧ (handle_set 0
        [("1.2.3", { SOPClassUID := mppsSopClassUid, SOPInstanceUID := "1.2.3",
                     attrs := emptyAttrList })]
        emptyStore (some "1.2.3") emptyAttrList).status = 0x0000 := by
  constructor
  · exact (C4_set_status_codes 0 [] emptyStore (some "1.2.3") emptyAttrList).1.mpr
      (by decide)
  · exact ((C4_set_status_codes 0
      [("1.2.3", { SOPClassUID := mppsSopClassUid, SOPInstanceUID := "1.2.3",
                   attrs := emptyAttrList })]
      emptyStore (some "1.2.3") emptyAttrList).2.2 "1.2.3" rfl (by decide) (by decide)).1

/-! Characterization of the synchronization loop -/

/-- Condition under which the per-order loop inserts a worklist item for
an order: all required fields present and no committed item already
carries the derived accession number. -/
def orderInserted (committed : List WorklistItem) (o : EmrOrder) : Bool :=
  !(orderIncomplete o)
    && !((committed.find? fun w =>
          w.accession_number == orderAccessionNumber (o.PcsOdrSeq.getD 0)).isSome)

theorem processOrder_pending (env : SyncEnv) (aets : List (String × String))
    (committed : List WorklistItem) (st : SyncState) (o : EmrOrder) :
    (processOrder env aets committed st o).pending
      = st.pending ++ (if orderInserted committed o
          then [mkWorklistItemOfOrder env aets o] else []) := by
  unfold processOrder orderInserted
  by_cases h1 : orderIncomplete o
  · simp [h1]
  · by_cases h2 : (committed.find? fun w =>
        w.accession_number == orderAccessionNumber (o.PcsOdrSeq.getD 0)).isSome
    · simp [h1, h2]
    · simp [h1, h2]

theorem processOrder_count (env : SyncEnv) (aets : List (String × String))
    (committed : List WorklistItem) (st : SyncState) (o : EmrOrder) :
    (processOrder env aets committed st o).count
      = st.count + (if orderInserted committed o then 1 else 0) := by
  unfold processOrder orderInserted
  by_cases h1 : orderIncomplete o
  · simp [h1]
  · by_cases h2 : (committed.find? fun w =>
        w.accession_number == orderAccessionNumber (o.PcsOdrSeq.getD 0)).isSome
    · simp [h1, h2]
    · simp [h1, h2]

theorem syncLoop_pending (env : SyncEnv) (aets : List (String × String))
    (committed : List WorklistItem) :
    ∀ (orders : List EmrOrder) (st : SyncState),
    (orders.foldl (processOrder env aets committed) st).pending
      = st.pending ++ (orders.filter (orderInserted committed)).map
          (mkWorklistItemOfOrder env aets) := by
  intro orders
  induction orders with
  | nil => intro st; simp
  | cons o os ih =>
    intro st
    rw [List.foldl_cons, ih, List.filter_cons]
    by_cases h : orderInserted committed o
    · simp [h, processOrder_pending]
    · simp [h, processOrder_pending]

theorem syncLoop_count (env : SyncEnv) (aets : List (String × String))
    (committed : List WorklistItem) :
    ∀ (orders : List EmrOrder) (st : SyncState),
    (orders.foldl (processOrder env aets committed) st).count
      = st.count + (orders.filter (orderInserted committed)).length := by
  intro orders
  induction orders with
  | nil => intro st; simp
  | cons o os ih =>
    intro st
    rw [List.foldl_cons, ih, List.filter_cons]
    by_cases h : orderInserted committed o
    · simp [h, processOrder_count]; omega
    · simp [h, processOrder_count]

/-- Worklist items the synchronization run adds to the session before the
commit. -/
def syncPending (env : SyncEnv) (table : List EmrOrder) (store : Store) :
    List WorklistItem :=
  ((fetch_new_orders table (emrCursor store.worklist_items)).filter
    (orderInserted store.worklist_items)).map
    (mkWorklistItemOfOrder env store.modality_aets)

theorem sync_count_eq (env : SyncEnv) (table : List EmrOrder) (store : Store) :
    (sync_emr_orders env table store).1
      = if (insertAllUnique store.worklist_items (syncPending env table store)).isSome
        then (syncPending env table store).length else 0 := by
  have hsp : syncPending env table store
      = ((fetch_new_orders table (emrCursor store.worklist_items)).filter
          (orderInserted store.worklist_items)).map
          (mkWorklistItemOfOrder env store.modality_aets) := rfl
  simp only [sync_emr_orders]
  rw [syncLoop_pending, syncLoop_count, List.nil_append, ← hsp]
  rcases h : insertAllUnique store.worklist_items (syncPending env table store) with _ | r
  · simp [h]
  · simp [h, hsp]

theorem sync_items_eq (env : SyncEnv) (table : List EmrOrder) (store : Store) :
    (sync_emr_orders env table store).2.worklist_items
      = match insertAllUnique store.worklist_items (syncPending env table store) with
        | some items => items
        | none => store.worklist_items := by
  have hsp : syncPending env table store
      = ((fetch_new_orders table (emrCursor store.worklist_items)).filter
          (orderInserted store.worklist_items)).map
          (mkWorklistItemOfOrder env store.modality_aets) := rfl
  simp only [sync_emr_orders]
  rw [syncLoop_pending, List.nil_append, ← hsp]
  rcases h : insertAllUnique store.worklist_items (syncPending env table store) with _ | r
  · simp [h]
  · simp [h]

theorem sync_aets_eq (env : SyncEnv) (table : List EmrOrder) (store : Store) :
    (sync_emr_orders env table store).2.modality_aets = store.modality_aets := by
  simp only [sync_emr_orders]
  rcases h : insertAllUnique store.worklist_items
      (List.foldl (processOrder env store.modality_aets store.worklist_items)
        { patients := store.patients, pending := [], count := 0 }
        (fetch_new_orders table (emrCursor store.worklist_items))).pending with _ | r
  · simp [h]
  · simp [h]

/-! Claim C10 -/

/-- C10: one fetch returns at most 5 order records, so a single sync run
creates at most 5 new worklist items however many newer orders exist. -/
theorem C10_fetch_batch_bounded (env : SyncEnv) (table : List EmrOrder)
    (store : Store) (last_order_seq : Option Int) :
    (fetch_new_orders table last_order_seq).length ≤ 5
    ∧ (sync_emr_orders env table store).1 ≤ 5
    ∧ (sync_emr_orders env table store).2.worklist_items.length
        ≤ store.worklist_items.length + 5 := by
  have hfetch : ∀ l : Option Int, (fetch_new_orders table l).length ≤ 5 := by
    intro l
    unfold fetch_new_orders
    simp [List.length_take_le]
  have hpend : (syncPending env table store).length ≤ 5 := by
    unfold syncPending
    rw [List.length_map]
    exact le_trans (List.length_filter_le _ _) (hfetch _)
  refine ⟨hfetch _, ?_, ?_⟩
  · rw [sync_count_eq]
    by_cases h : (insertAllUnique store.worklist_items (syncPending env table store)).isSome
    · simp [h, hpend]
    · simp [h]
  · rw [sync_items_eq]
    rcases h : insertAllUnique store.worklist_items (syncPending env table store) with _ | r
    · simp
    · have := insertAllUnique_some h
      subst this
      simp
      omega

/-! Claim C8 -/

theorem buildWorklistObjects_patient_name (env : FindEnv) :
    ∀ (rows : List WorklistRow) (store : Store) (c : Nat),
    List.Forall₂ (fun (d : WorklistDataset) (row : WorklistRow) =>
        d.sps.Modality = row.modality
        ∧ d.PatientName = (if row.modality == "US"
            then row.patient_eng_name else row.patient_name))
      (buildWorklistObjects env rows store c).1 rows := by
  intro rows
  induction rows with
  | nil => intro store c; simp [buildWorklistObjects]
  | cons row rest ih =>
    intro store c
    unfold buildWorklistObjects
    refine List.Forall₂.cons ?_ (ih _ _)
    unfold buildWorklistObject
    rcases row.study_instance_uid with _ | u <;> simp

/-- C8: every record produced by find uses the transliterated name exactly
for the ultrasound modality code US and the local-script name for every
other modality (witnessed by the modality stored in the nested scheduled
step of the same record). -/
theorem C8_display_name_by_modality (env : FindEnv) (store : Store)
    (req : FindRequest) :
    List.Forall₂ (fun (d : WorklistDataset) (row : WorklistRow) =>
        d.sps.Modality = row.modality
        ∧ d.PatientName = (if row.modality == "US"
            then row.patient_eng_name else row.patient_name))
      (find_worklist env store req).1 (findRows env store req) := by
  unfold find_worklist
  exact buildWorklistObjects_patient_name env _ _ _

/-! Claim C2 -/

/-- Status of the first worklist item carrying the accession number. -/
def statusOfAccession (store : Store) (a : String) : Option String :=
  (store.worklist_items.find? fun w => w.accession_number == a).map (fun w => w.status)

theorem find?_updateFirstItem_status (a s : String) :
    ∀ l : List WorklistItem,
    ((l.find? fun w => w.accession_number == a)).isSome = true →
    ((updateFirstItem (fun w => w.accession_number == a)
        (fun w => { w with status := s }) l).find?
      (fun w => w.accession_number == a)).map (fun w => w.status) = some s := by
  intro l
  induction l with
  | nil => intro h; simp at h
  | cons w ws ih =>
    intro h
    by_cases hw : (w.accession_number == a) = true
    · have hw2 : ((({ w with status := s } : WorklistItem)).accession_number == a) = true := by
        simpa using hw
      simp [updateFirstItem, hw, hw2]
    · have h2 : ((ws.find? fun w => w.accession_number == a)).isSome = true := by
        simpa [hw] using h
      simpa [updateFirstItem, hw] using ih h2

/-- Tracking row inserted by a validated start event. -/
def mppsRowOf (now : Int) (uid a study_uid modality : String) : MPPSTracking :=
  { sop_instance_uid := uid, accession_number := a, study_instance_uid := study_uid,
    modality := modality, status := "IN PROGRESS", start_time := now, end_time := none }

theorem record_mpps_in_progress_found (now : Int) (store : Store)
    (uid modality a study_uid : String) (w : WorklistItem)
    (hf : store.worklist_items.find? (fun w => w.accession_number == a) = some w) :
    record_mpps_in_progress now store uid modality a study_uid =
      (true, { store with
        worklist_items := updateFirstItem (fun w => w.accession_number == a)
          (fun w => { w with status := "IN PROGRESS" }) store.worklist_items,
        mpps_tracking := store.mpps_tracking ++ [mppsRowOf now uid a study_uid modality] }) := by
  unfold record_mpps_in_progress mppsRowOf
  rw [hf]

theorem record_mpps_completed_found (now : Int) (store : Store) (uid : String)
    (mpps : MPPSTracking) (v : WorklistItem)
    (hf : store.mpps_tracking.find? (fun t => t.sop_instance_uid == uid) = some mpps)
    (hw : store.worklist_items.find?
      (fun w => w.accession_number == mpps.accession_number) = some v) :
    record_mpps_completed now store uid =
      ((true, some mpps.accession_number),
        { store with
          worklist_items := updateFirstItem
            (fun w => w.accession_number == mpps.accession_number)
            (fun w => { w with status := "COMPLETED" }) store.worklist_items,
          mpps_tracking := updateFirstItem (fun t => t.sop_instance_uid == uid)
            (fun t => { t with status := "COMPLETED", end_time := some now })
            store.mpps_tracking }) := by
  unfold record_mpps_completed
  rw [hf]
  dsimp only
  rw [hw]

/-- C2: a validated start event then a validated complete event on the
same step instance identifier moves the owning worklist item through the
status trace SCHEDULED, IN PROGRESS, COMPLETED, in that order (the code
stores the labels with a space where the spec writes an underscore). -/
theorem C2_state_machine (now1 now2 : Int) (store : Store)
    (uid modality a study_uid : String)
    (hsched : statusOfAccession store a = some "SCHEDULED")
    (hfresh : (store.mpps_tracking.find? fun t => t.sop_instance_uid == uid) = none) :
    (record_mpps_in_progress now1 store uid modality a study_uid).1 = true
    ∧ statusOfAccession (record_mpps_in_progress now1 store uid modality a study_uid).2 a
        = some "IN PROGRESS"
    ∧ (record_mpps_completed now2
        (record_mpps_in_progress now1 store uid modality a study_uid).2 uid).1.1 = true
    ∧ (record_mpps_completed now2
        (record_mpps_in_progress now1 store uid modality a study_uid).2 uid).1.2 = some a
    ∧ statusOfAccession (record_mpps_completed now2
        (record_mpps_in_progress now1 store uid modality a study_uid).2 uid).2 a
        = some "COMPLETED" := by
  have hsome : ((store.worklist_items.find? fun w => w.accession_number == a)).isSome = true := by
    unfold statusOfAccession at hsched
    rcases hff : store.worklist_items.find? fun w => w.accession_number == a with _ | w
    · rw [hff] at hsched; simp at hsched
    · rw [hff]; rfl
  rcases hf : store.worklist_items.find? (fun w => w.accession_number == a) with _ | w
  · rw [hf] at hsome; simp at hsome
  · rw [record_mpps_in_progress_found now1 store uid modality a study_uid w hf]
    have hsome1 : ((updateFirstItem (fun w => w.accession_number == a)
        (fun w => { w with status := "IN PROGRESS" }) store.worklist_items).find?
          (fun w => w.accession_number == a)).isSome = true := by
      have hmap := find?_updateFirstItem_status a "IN PROGRESS" store.worklist_items hsome
      rcases hg : (updateFirstItem (fun w => w.accession_number == a)
          (fun w => { w with status := "IN PROGRESS" }) store.worklist_items).find?
            (fun w => w.accession_number == a) with _ | v
      · rw [hg] at hmap; simp at hmap
      · rw [hg]; rfl
    rcases hg : (updateFirstItem (fun w => w.accession_number == a)
        (fun w => { w with status := "IN PROGRESS" }) store.worklist_items).find?
          (fun w => w.accession_number == a) with _ | v
    · rw [hg] at hsome1; simp at hsome1
    · have hmppsRow : ((store.mpps_tracking ++
          [mppsRowOf now1 uid a study_uid modality]).find?
            (fun t => t.sop_instance_uid == uid))
          = some (mppsRowOf now1 uid a study_uid modality) := by
        rw [List.find?_append, hfresh]
        simp [mppsRowOf]
      have hg2 : (updateFirstItem (fun w => w.accession_number == a)
          (fun w => { w with status := "IN PROGRESS" }) store.worklist_items).find?
            (fun w => w.accession_number ==
              (mppsRowOf now1 uid a study_uid modality).accession_number) = some v := by
        simpa [mppsRowOf] using hg
      dsimp only
      rw [record_mpps_completed_found now2 _ uid _ v hmppsRow hg2]
      refine ⟨rfl, ?_, rfl, ?_, ?_⟩
      · unfold statusOfAccession
        exact find?_updateFirstItem_status a "IN PROGRESS" store.worklist_items hsome
      · simp [mppsRowOf]
      · unfold statusOfAccession
        simpa [mppsRowOf] using
          find?_updateFirstItem_status a "COMPLETED" _ hsome1

/-- Concrete SCHEDULED worklist item used by witness evaluations. -/
def c2Item : WorklistItem :=
  { patient_id := "p1"
    accession_number := "00000042"
    appointment_date := "20250101"
    appointment_time := "100000"
    modality := "CT"
    aet := none
    study_instance_uid := none
    status := "SCHEDULED"
    emr_order_seq := some 42 }

/-- Concrete store with one SCHEDULED item, exercising the state
machine. -/
def c2Store : Store :=
  { patients := []
    worklist_items := [c2Item]
    mpps_tracking := []
    modality_aets := [] }

/-- C2 witness: the concrete trace on a one-item store. -/
theorem C2_state_machine_witness :
    statusOfAccession c2Store "00000042" = some "SCHEDULED"
    ∧ statusOfAccession
        (record_mpps_in_progress 0 c2Store "1.2.3" "CT" "00000042" "9.8.7").2
        "00000042" = some "IN PROGRESS"
    ∧ statusOfAccession (record_mpps_completed 1
        (record_mpps_in_progress 0 c2Store "1.2.3" "CT" "00000042" "9.8.7").2
        "1.2.3").2 "00000042" = some "COMPLETED" :=
  ⟨by decide,
   ((C2_state_machine 0 1 c2Store "1.2.3" "CT" "00000042" "9.8.7"
      (by decide) (by decide)).2).1,
   ((((C2_state_machine 0 1 c2Store "1.2.3" "CT" "00000042" "9.8.7"
      (by decide) (by decide)).2).2).2).2⟩

/-! Claim C9 -/

/-- C9: when the protocol validations of the start operation all pass, the
operation returns 0x0000 with the constructed dataset and the instance
registered even when the scheduling-attributes extraction fails or when no
worklist item carries the extracted accession number, and in the latter
case no tracking row is created and the store is entirely unchanged. -/
theorem C9_create_lenient_success (now : Int)
    (managed : List (String × MppsDataset)) (store : Store) (uid : String)
    (attrs : MppsAttrList) (stat : String)
    (hnotdup : (managed.find? fun p => p.1 == uid) = none)
    (hstat : attrs.PerformedProcedureStepStatus = some stat)
    (hip : pyUpper stat = "IN PROGRESS") :
    ((handle_create now managed store (some uid) attrs).status = 0x0000
      ∧ (handle_create now managed store (some uid) attrs).ds =
          some { SOPClassUID := mppsSopClassUid, SOPInstanceUID := uid, attrs := attrs }
      ∧ (handle_create now managed store (some uid) attrs).managed =
          managed ++ [(uid, { SOPClassUID := mppsSopClassUid, SOPInstanceUID := uid,
                              attrs := attrs })])
    ∧ (attrs.ScheduledStepAttributesSequence = none →
        (handle_create now managed store (some uid) attrs).store = store)
    ∧ (∀ modality first rest acc suid,
        attrs.Modality = some modality →
        attrs.ScheduledStepAttributesSequence = some (first :: rest) →
        first.AccessionNumber = some acc →
        first.StudyInstanceUID = some suid →
        (store.worklist_items.find? fun w => w.accession_number == acc) = none →
        (handle_create now managed store (some uid) attrs).store = store) := by
  have hdup : ((managed.find? fun p => p.1 == uid).isSome) = false := by
    rw [hnotdup]; rfl
  have hbne : (pyUpper stat != "IN PROGRESS") = false := by
    simp [bne, hip]
  refine ⟨?_, ?_, ?_⟩
  · unfold handle_create
    dsimp only
    rw [hnotdup]
    simp only [Option.isSome_none, Bool.false_eq_true, if_false, hstat, hbne]
    rcases attrs.Modality with _ | modality <;>
      rcases hseq : attrs.ScheduledStepAttributesSequence with _ | (_ | ⟨first, rest⟩) <;>
      simp_all <;>
      rcases first.AccessionNumber with _ | acc <;>
      rcases first.StudyInstanceUID with _ | suid <;>
      simp_all
  · intro hseq
    unfold handle_create
    dsimp only
    rw [hnotdup]
    simp only [Option.isSome_none, Bool.false_eq_true, if_false, hstat, hbne]
    rcases attrs.Modality with _ | modality <;> simp_all
  · intro modality first rest acc suid hmod hseq hacc hsuid hnoitem
    unfold handle_create
    dsimp only
    rw [hnotdup]
    simp only [Option.isSome_none, Bool.false_eq_true, if_false, hstat, hbne, hmod, hseq,
      hacc, hsuid]
    simp [record_mpps_in_progress, hnoitem]

/-- Scheduling attributes referencing an accession number absent from the
store, used by the C9 witness. -/
def c9Attrs : MppsAttrList :=
  { PerformedProcedureStepStatus := some "IN PROGRESS"
    Modality := some "CT"
    ScheduledStepAttributesSequence :=
      some [{ AccessionNumber := some "NOPE", StudyInstanceUID := some "9.9.9" }] }

/-- C9 witness: concrete evaluation on an empty store. -/
theorem C9_create_lenient_success_witness :
    (handle_create 0 [] emptyStore (some "1.2.3") c9Attrs).status = 0x0000
    ∧ (handle_create 0 [] emptyStore (some "1.2.3") c9Attrs).store = emptyStore :=
  ⟨(C9_create_lenient_success 0 [] emptyStore "1.2.3" c9Attrs "IN PROGRESS"
      (by decide) (by decide) (by decide)).1.1,
   (C9_create_lenient_success 0 [] emptyStore "1.2.3" c9Attrs "IN PROGRESS"
      (by decide) (by decide) (by decide)).2.2 "CT"
      { AccessionNumber := some "NOPE", StudyInstanceUID := some "9.9.9" } []
      "NOPE" "9.9.9" (by decide) (by decide) (by decide) (by decide) (by decide)⟩

/-! Claim C5 -/

/-- Predicate of the claim for the worklist query: status SCHEDULED, exact
match on modality when a modality is given, exact match on date when a
date is given, and exact match on accession number when one is given that
is not the wildcard; an absent or wildcard accession imposes no
constraint. -/
def claimWorklistPred (modality date accession_number : Option String)
    (w : WorklistItem) : Bool :=
  w.status == "SCHEDULED"
  && (strFalsy modality || w.modality == modality.getD "")
  && (strFalsy date || w.appointment_date == date.getD "")
  && (strFalsy accession_number || accession_number == some "*"
        || w.accession_number == accession_number.getD "")

theorem worklistItemFilter_eq_claim (modality date accession_number : Option String)
    (w : WorklistItem) :
    worklistItemFilter modality date accession_number w
      = claimWorklistPred modality date accession_number w := by
  unfold worklistItemFilter claimWorklistPred
  by_cases hb : accession_number = some "*"
  · subst hb
    simp [strFalsy, Bool.and_comm, Bool.and_assoc, Bool.and_left_comm]
  · have hb2 : (accession_number == some "*") = false := by
      simpa using hb
    cases hm : strFalsy modality <;> cases hd : strFalsy date <;>
      cases ha : strFalsy accession_number <;>
      simp [hm, hd, ha, hb, hb2, Bool.and_comm, Bool.and_assoc, Bool.and_left_comm]

theorem filterMap_join_accessions (patients : List Patient) :
    ∀ l : List WorklistItem,
    (∀ w ∈ l, ∃ p ∈ patients, p.patient_id = w.patient_id) →
    ((l.filterMap fun w =>
        (patients.find? fun p => p.patient_id == w.patient_id).map (mkWorklistRow w)).map
      (fun r => r.accession_number)) = l.map (fun w => w.accession_number) := by
  intro l
  induction l with
  | nil => intro h; rfl
  | cons w ws ih =>
    intro h
    have hw := h w (by simp)
    have hsome : ((patients.find? fun p => p.patient_id == w.patient_id)).isSome = true := by
      rw [List.find?_isSome]
      obtain ⟨p, hp, hpid⟩ := hw
      exact ⟨p, hp, by simp [hpid]⟩
    rcases hf : patients.find? fun p => p.patient_id == w.patient_id with _ | p
    · rw [hf] at hsome; simp at hsome
    · have hfa : (fun w => Option.map (mkWorklistRow w)
          (patients.find? fun p => p.patient_id == w.patient_id)) w
          = some (mkWorklistRow w p) := by
        show Option.map (mkWorklistRow w)
          (patients.find? fun p => p.patient_id == w.patient_id)
          = some (mkWorklistRow w p)
        rw [hf]
        rfl
      rw [@List.filterMap_cons_some WorklistItem WorklistRow
          (fun w => Option.map (mkWorklistRow w)
            (patients.find? fun p => p.patient_id == w.patient_id))
          w ws (mkWorklistRow w p) hfa,
        List.map_cons, List.map_cons, ih (fun v hv => h v (by simp [hv]))]
      rfl

/-- C5: the worklist query returns exactly the SCHEDULED items satisfying
every supplied predicate (witnessed by the accession numbers, which
identify items uniquely); in particular a wildcard accession with no other
filter returns all SCHEDULED items. -/
theorem C5_filter_correctness (store : Store)
    (modality date accession_number : Option String)
    (hcov : ∀ w ∈ store.worklist_items, w.status = "SCHEDULED" →
        ∃ p ∈ store.patients, p.patient_id = w.patient_id) :
    ((get_worklist_items store modality date accession_number).map
        (fun r => r.accession_number)
      = (store.worklist_items.filter
          (claimWorklistPred modality date accession_number)).map
          (fun w => w.accession_number))
    ∧ ((get_worklist_items store none none (some "*")).map
        (fun r => r.accession_number)
      = (store.worklist_items.filter (fun w => w.status == "SCHEDULED")).map
          (fun w => w.accession_number)) := by
  have hmain : ∀ m d a : Option String,
      ((get_worklist_items store m d a).map (fun r => r.accession_number)
        = (store.worklist_items.filter (claimWorklistPred m d a)).map
            (fun w => w.accession_number)) := by
    intro m d a
    unfold get_worklist_items
    have hfe : store.worklist_items.filter (worklistItemFilter m d a)
        = store.worklist_items.filter (claimWorklistPred m d a) := by
      apply List.filter_congr
      intro w _
      exact worklistItemFilter_eq_claim m d a w
    rw [hfe]
    apply filterMap_join_accessions
    intro w hwmem
    have hsched : w.status = "SCHEDULED" := by
      have hmem := (List.mem_filter.mp hwmem).2
      unfold claimWorklistPred at hmem
      simp only [Bool.and_eq_true] at hmem
      exact eq_of_beq hmem.1.1.1
    exact hcov w ((List.mem_filter.mp hwmem).1) hsched
  refine ⟨hmain _ _ _, ?_⟩
  rw [hmain none none (some "*")]
  have : store.worklist_items.filter (claimWorklistPred none none (some "*"))
      = store.worklist_items.filter (fun w => w.status == "SCHEDULED") := by
    apply List.filter_congr
    intro w _
    unfold claimWorklistPred
    simp [strFalsy]
  rw [this]

/-- Concrete patient row for the C5 witness store. -/
def c5Patient : Patient :=
  { patient_id := "p1"
    patient_name := "DOE^JOHN"
    patient_eng_name := "DOE^JOHN"
    birth_date := "19800101"
    sex := "M" }

/-- Concrete SCHEDULED CT item for the C5 witness store. -/
def c5Item : WorklistItem :=
  { patient_id := "p1"
    accession_number := "00000042"
    appointment_date := "20250101"
    appointment_time := "100000"
    modality := "CT"
    aet := none
    study_instance_uid := none
    status := "SCHEDULED"
    emr_order_seq := some 42 }

/-- Concrete one-item store for the C5 witness. -/
def c5Store : Store :=
  { patients := [c5Patient]
    worklist_items := [c5Item]
    mpps_tracking := []
    modality_aets := [] }

/-- C5 witness: concrete evaluation on the one-item store (wildcard
accession and a modality filter). -/
theorem C5_filter_correctness_witness :
    ((get_worklist_items c5Store none none (some "*")).map
        (fun r => r.accession_number) = ["00000042"])
    ∧ ((get_worklist_items c5Store (some "MR") none none).map
        (fun r => r.accession_number) = []) := by
  have h1 := (C5_filter_correctness c5Store none none (some "*") (by decide)).2
  have h2 := (C5_filter_correctness c5Store (some "MR") none none (by decide)).1
  constructor
  · rw [h1]; decide
  · rw [h2]; decide

/-! Claim C6 -/

/-- Second SCHEDULED item (accession A2) of the C6 store. -/
def c6ItemA1 : WorklistItem :=
  { patient_id := "p1"
    accession_number := "A1"
    appointment_date := "20250101"
    appointment_time := "100000"
    modality := "CT"
    aet := none
    study_instance_uid := none
    status := "SCHEDULED"
    emr_order_seq := none }

/-- First SCHEDULED item (accession A1) of the C6 store. -/
def c6ItemA2 : WorklistItem :=
  { patient_id := "p1"
    accession_number := "A2"
    appointment_date := "20250101"
    appointment_time := "110000"
    modality := "CT"
    aet := none
    study_instance_uid := none
    status := "SCHEDULED"
    emr_order_seq := none }

/-- Patient row of the C6 store. -/
def c6Patient : Patient :=
  { patient_id := "p1"
    patient_name := "DOE^JOHN"
    patient_eng_name := "DOE^JOHN"
    birth_date := "19800101"
    sex := "M" }

/-- Store with two SCHEDULED items, both still without a study instance
UID. -/
def c6Store : Store :=
  { patients := [c6Patient]
    worklist_items := [c6ItemA1, c6ItemA2]
    mpps_tracking := []
    modality_aets := [] }

/-- Find-pipeline oracles for the C6 evaluation: an empty EMR table (the
embedded sync is a no-op) and a deterministic UID source. -/
def c6Env : FindEnv :=
  { sync := { romanize := fun _ => none, parse_odr_dtm := fun _ => none,
              now_date := "20250101", now_time := "000000" }
    emr_table := []
    generate_uid := fun n => String.append "1.2.3." (toString n) }

/-- Unconstrained C-FIND request (no filters, wildcard accession). -/
def c6Req : FindRequest :=
  { ScheduledProcedureStepSequence := none, AccessionNumber := none }

/-- C6 counterexample: consuming only the first of two records still
persists a generated study instance UID for the second record, which is
never yielded — a side effect beyond the yielded prefix, refuting the
claim that no persistence write is performed for never-yielded records. -/
theorem C6_counterexample_write_for_unyielded :
    ((handle_find c6Env c6Store c6Req 1).1.map
        (fun r => r.2.map (fun d => d.AccessionNumber))) = [some "A1"]
    ∧ ((handle_find c6Env c6Store c6Req 1).2.worklist_items.map
        (fun w => (w.accession_number, w.study_instance_uid)))
      = [("A1", some "1.2.3.0"), ("A2", some "1.2.3.1")] := by
  constructor
  · rfl
  · rfl

/-- C6 amended: all study-UID persistence writes of a find call happen
when the first record is produced (the record list is materialized
eagerly); abandoning the sequence after any number of consumed records
causes no further writes (the final store does not depend on the consumed
count once it is positive, and consuming nothing leaves the store
untouched), each yielded response is the pending-status prefix of the
eagerly built list, and the writes touch only the study-UID column. -/
theorem C6_amended_eager_writes (env : FindEnv) (store : Store)
    (req : FindRequest) (k : Nat) :
    (1 ≤ k → (handle_find env store req k).2 = (find_worklist env store req).2.1)
    ∧ (handle_find env store req 0).2 = store
    ∧ (1 ≤ k → k ≤ (find_worklist env store req).1.length →
        (handle_find env store req k).1
          = ((find_worklist env store req).1.take k).map (fun d => (0xFF00, some d)))
    ∧ ((find_worklist env store req).2.1.worklist_items.map
          (fun w => (w.patient_id, w.accession_number, w.status))
        = (sync_emr_orders env.sync env.emr_table store).2.worklist_items.map
          (fun w => (w.patient_id, w.accession_number, w.status))) := by
  refine ⟨?_, ?_, ?_, ?_⟩
  · intro hk
    unfold handle_find
    have h0 : (k == 0) = false := by
      cases k
      · omega
      · rfl
    rw [h0]
    by_cases hle : k ≤ (find_worklist env store req).1.length <;> simp [hle]
  · rfl
  · intro hk hle
    unfold handle_find
    have h0 : (k == 0) = false := by
      cases k
      · omega
      · rfl
    rw [h0]
    simp [hle]
  · unfold find_worklist
    have hbuild : ∀ (rows : List WorklistRow) (s : Store) (c : Nat),
        (buildWorklistObjects env rows s c).2.1.worklist_items.map
            (fun w => (w.patient_id, w.accession_number, w.status))
          = s.worklist_items.map (fun w => (w.patient_id, w.accession_number, w.status)) := by
      intro rows
      induction rows with
      | nil => intro s c; rfl
      | cons row rest ih =>
        intro s c
        unfold buildWorklistObjects buildWorklistObject
        rcases row.study_instance_uid with _ | u
        · dsimp only
          rw [ih]
          unfold update_study_instance_uid
          rcases hf : s.worklist_items.find?
              (fun w => w.accession_number == row.accession_number) with _ | v
          · simp [hf]
          · simp only [hf]
            apply updateFirstItem_map_eq
            intro x
            rfl
        · dsimp only
          rw [ih]
    exact hbuild _ _ _

/-! Cursor and fetch lemmas backing claim C1 -/

theorem listMaxInt_eq_none : ∀ l : List Int, listMaxInt l = none ↔ l = [] := by
  intro l
  cases l with
  | nil => simp [listMaxInt]
  | cons x xs =>
    simp only [listMaxInt]
    rcases h : listMaxInt xs with _ | m <;> simp

theorem listMaxInt_le : ∀ (l : List Int) (m : Int), listMaxInt l = some m →
    ∀ x ∈ l, x ≤ m := by
  intro l
  induction l with
  | nil => intro m h; simp [listMaxInt] at h
  | cons x xs ih =>
    intro m h y hy
    simp only [listMaxInt] at h
    rcases hxs : listMaxInt xs with _ | mm
    · rw [hxs] at h
      simp at h
      rcases List.mem_cons.mp hy with hyx | hyxs
      · omega
      · rw [(listMaxInt_eq_none xs).mp hxs] at hyxs
        simp at hyxs
    · rw [hxs] at h
      simp at h
      rcases List.mem_cons.mp hy with hyx | hyxs
      · subst hyx; omega
      · have := ih mm hxs y hyxs
        omega

theorem listMaxInt_mem : ∀ (l : List Int) (m : Int), listMaxInt l = some m → m ∈ l := by
  intro l
  induction l with
  | nil => intro m h; simp [listMaxInt] at h
  | cons x xs ih =>
    intro m h
    simp only [listMaxInt] at h
    rcases hxs : listMaxInt xs with _ | mm
    · rw [hxs] at h
      simp at h
      simp [h]
    · rw [hxs] at h
      simp at h
      rcases max_choice x mm with hc | hc <;> rw [hc] at h
      · simp [h]
      · subst h
        exact List.mem_cons_of_mem _ (ih mm hxs)

theorem emrCursor_le (items : List WorklistItem) (m : Int)
    (h : emrCursor items = some m) :
    ∀ w ∈ items, ∀ t : Int, w.emr_order_seq = some t → t ≤ m := by
  intro w hw t ht
  exact listMaxInt_le _ m h t (List.mem_filterMap.mpr ⟨w, hw, ht⟩)

theorem emrCursor_none (items : List WorklistItem)
    (h : emrCursor items = none) : ∀ w ∈ items, w.emr_order_seq = none := by
  intro w hw
  rcases ht : w.emr_order_seq with _ | t
  · rfl
  · have hmem : t ∈ items.filterMap (fun w => w.emr_order_seq) :=
      List.mem_filterMap.mpr ⟨w, hw, ht⟩
    unfold emrCursor at h
    rw [(listMaxInt_eq_none _).mp h] at hmem
    simp at hmem

theorem emrCursor_mem (items : List WorklistItem) (m : Int)
    (h : emrCursor items = some m) :
    ∃ w ∈ items, w.emr_order_seq = some m := by
  have := listMaxInt_mem _ m h
  exact List.mem_filterMap.mp this

theorem seqNewer_some_elim (m : Int) (o : EmrOrder)
    (h : seqNewer (some m) o = true) :
    ∃ s, o.PcsOdrSeq = some s ∧ m < s := by
  unfold seqNewer at h
  rcases ho : o.PcsOdrSeq with _ | s
  · rw [ho] at h; simp at h
  · rw [ho] at h; simp at h; exact ⟨s, rfl, h⟩

theorem orderGe_some_elim (y o : EmrOrder) (s : Int)
    (hos : o.PcsOdrSeq = some s) (h : OrderGe y o) :
    ∃ t, y.PcsOdrSeq = some t ∧ s ≤ t := by
  unfold OrderGe keyGe at h
  rcases hy : y.PcsOdrSeq with _ | t
  · rw [hy, hos] at h; simp at h
  · rw [hy, hos] at h; simp at h; exact ⟨t, rfl, h⟩

theorem fetch_new_orders_subset (table : List EmrOrder) (last : Option Int) :
    ∀ o ∈ fetch_new_orders table last,
      o ∈ table.filter (fun x => x.PcsDelFlg == "N" && seqNewer last x) := by
  intro o ho
  unfold fetch_new_orders at ho
  have := List.mem_of_mem_take ho
  exact (List.mem_insertionSort OrderGe).mp this

theorem fetch_new_orders_top (table : List EmrOrder) (last : Option Int)
    (o : EmrOrder)
    (hmem : o ∈ table.filter (fun x => x.PcsDelFlg == "N" && seqNewer last x))
    (hnot : o ∉ fetch_new_orders table last) :
    ∀ y ∈ fetch_new_orders table last, OrderGe y o := by
  intro y hy
  unfold fetch_new_orders at hy hnot
  have hol : o ∈ (table.filter
      (fun x => x.PcsDelFlg == "N" && seqNewer last x)).insertionSort OrderGe :=
    (List.mem_insertionSort OrderGe).mpr hmem
  have hsorted : ((table.filter
      (fun x => x.PcsDelFlg == "N" && seqNewer last x)).insertionSort OrderGe).Pairwise
        OrderGe :=
    List.sorted_insertionSort OrderGe _
  set l := (table.filter
      (fun x => x.PcsDelFlg == "N" && seqNewer last x)).insertionSort OrderGe with hl
  have hsplit : l.take 5 ++ l.drop 5 = l := List.take_append_drop 5 l
  have hpw : (l.take 5 ++ l.drop 5).Pairwise OrderGe := by rw [hsplit]; exact hsorted
  have hod : o ∈ l.drop 5 := by
    have : o ∈ l.take 5 ++ l.drop 5 := by rw [hsplit]; exact hol
    rcases List.mem_append.mp this with h5 | h5
    · exact absurd h5 hnot
    · exact h5
  exact (List.pairwise_append.mp hpw).2.2 y hy o hod

theorem orderInserted_elim (committed : List WorklistItem) (o : EmrOrder)
    (h : orderInserted committed o = true) :
    orderIncomplete o = false
    ∧ (committed.find? fun w =>
        w.accession_number == orderAccessionNumber (o.PcsOdrSeq.getD 0)) = none := by
  unfold orderInserted at h
  simp only [Bool.and_eq_true] at h
  rcases h with ⟨h1, h2⟩
  refine ⟨by simpa using h1, ?_⟩
  rcases hf : committed.find? fun w =>
      w.accession_number == orderAccessionNumber (o.PcsOdrSeq.getD 0) with _ | v
  · exact hf
  · rw [hf] at h2; simp at h2

theorem sync_store_abort (env : SyncEnv) (table : List EmrOrder) (store : Store)
    (h : insertAllUnique store.worklist_items (syncPending env table store) = none) :
    sync_emr_orders env table store = (0, store) := by
  have hsp : syncPending env table store
      = ((fetch_new_orders table (emrCursor store.worklist_items)).filter
          (orderInserted store.worklist_items)).map
          (mkWorklistItemOfOrder env store.modality_aets) := rfl
  simp only [sync_emr_orders]
  rw [syncLoop_pending, List.nil_append, ← hsp, h]

/-! Claim C1 -/

theorem syncPending_mem (env : SyncEnv) (table : List EmrOrder) (store : Store)
    (w : WorklistItem) (hw : w ∈ syncPending env table store) :
    ∃ o, o ∈ fetch_new_orders table (emrCursor store.worklist_items)
      ∧ orderInserted store.worklist_items o = true
      ∧ w = mkWorklistItemOfOrder env store.modality_aets o := by
  unfold syncPending at hw
  obtain ⟨o, ho, rfl⟩ := List.mem_map.mp hw
  have hm := List.mem_filter.mp ho
  exact ⟨o, hm.1, hm.2, rfl⟩

theorem sync_second_filter_nil (env : SyncEnv) (table : List EmrOrder)
    (store : Store) (r : List WorklistItem)
    (hcommit : insertAllUnique store.worklist_items
      (syncPending env table store) = some r) :
    (fetch_new_orders table (emrCursor r)).filter (orderInserted r) = [] := by
  have hr : r = store.worklist_items ++ syncPending env table store :=
    insertAllUnique_some hcommit
  rw [List.filter_eq_nil_iff]
  intro o ho hins
  obtain ⟨hcomp, hfindnone⟩ := orderInserted_elim r o hins
  have hsub := fetch_new_orders_subset table (emrCursor r) o ho
  have hmf := List.mem_filter.mp hsub
  have hmf2 := hmf.2
  simp only [Bool.and_eq_true] at hmf2
  obtain ⟨hdel, hnewer⟩ := hmf2
  rcases hc1 : emrCursor r with _ | m
  · have hpnil : syncPending env table store = [] := by
      rw [List.eq_nil_iff_forall_not_mem]
      intro w hw
      have hwr : w ∈ r := by
        rw [hr]; exact List.mem_append.mpr (Or.inr hw)
      have hnone := emrCursor_none r hc1 w hwr
      obtain ⟨o', _, _, rfl⟩ := syncPending_mem env table store w hw
      simp [mkWorklistItemOfOrder] at hnone
    have hrp : r = store.worklist_items := by
      rw [hr, hpnil, List.append_nil]
    have hf1nil : ∀ y ∈ fetch_new_orders table (emrCursor store.worklist_items),
        ¬ orderInserted store.worklist_items y = true := by
      have hmapnil : ((fetch_new_orders table (emrCursor store.worklist_items)).filter
          (orderInserted store.worklist_items)) = [] := by
        have hp2 := hpnil
        unfold syncPending at hp2
        exact List.map_eq_nil_iff.mp hp2
      exact List.filter_eq_nil_iff.mp hmapnil
    rw [hrp] at ho hins
    exact hf1nil o ho hins
  · rw [hc1] at hnewer
    obtain ⟨s, hos, hms⟩ := seqNewer_some_elim m o hnewer
    by_cases ho1 : o ∈ fetch_new_orders table (emrCursor store.worklist_items)
    · by_cases hoins : orderInserted store.worklist_items o = true
      · have hmk : mkWorklistItemOfOrder env store.modality_aets o
            ∈ syncPending env table store := by
          unfold syncPending
          exact List.mem_map.mpr ⟨o, List.mem_filter.mpr ⟨ho1, hoins⟩, rfl⟩
        have hmkr : mkWorklistItemOfOrder env store.modality_aets o ∈ r := by
          rw [hr]; exact List.mem_append.mpr (Or.inr hmk)
        have hno := List.find?_eq_none.mp hfindnone _ hmkr
        apply hno
        show ((mkWorklistItemOfOrder env store.modality_aets o).accession_number
          == orderAccessionNumber (o.PcsOdrSeq.getD 0)) = true
        exact beq_self_eq_true _
      · have hfalse : orderInserted store.worklist_items o = false :=
          eq_false_of_ne_true hoins
        unfold orderInserted at hfalse
        rw [hcomp] at hfalse
        simp at hfalse
        obtain ⟨x, hx, hxacc⟩ := hfalse
        have hxr : x ∈ r := by rw [hr]; exact List.mem_append.mpr (Or.inl hx)
        apply List.find?_eq_none.mp hfindnone x hxr
        show (x.accession_number == orderAccessionNumber (o.PcsOdrSeq.getD 0)) = true
        rw [hxacc]
        exact beq_self_eq_true _
    · have hc0new : seqNewer (emrCursor store.worklist_items) o = true := by
        rcases hc0 : emrCursor store.worklist_items with _ | m0
        · rfl
        · obtain ⟨w0, hw0, hw0seq⟩ := emrCursor_mem _ m0 hc0
          have hw0r : w0 ∈ r := by
            rw [hr]; exact List.mem_append.mpr (Or.inl hw0)
          have hm0 : m0 ≤ m := emrCursor_le r m hc1 w0 hw0r m0 hw0seq
          unfold seqNewer
          rw [hos]
          simp
          omega
      have hofil : o ∈ table.filter
          (fun x => x.PcsDelFlg == "N"
            && seqNewer (emrCursor store.worklist_items) x) := by
        refine List.mem_filter.mpr ⟨hmf.1, ?_⟩
        simp [hdel, hc0new]
      have htop := fetch_new_orders_top table (emrCursor store.worklist_items) o hofil ho1
      have hpnil : syncPending env table store = [] := by
        rw [List.eq_nil_iff_forall_not_mem]
        intro w hw
        obtain ⟨o', ho'f, ho'ins, rfl⟩ := syncPending_mem env table store w hw
        have hge := htop o' ho'f
        obtain ⟨t, ho't, hst⟩ := orderGe_some_elim o' o s hos hge
        have hwr : mkWorklistItemOfOrder env store.modality_aets o' ∈ r := by
          rw [hr]; exact List.mem_append.mpr (Or.inr hw)
        have hseq : (mkWorklistItemOfOrder env store.modality_aets o').emr_order_seq
            = some t := by
          show some (o'.PcsOdrSeq.getD 0) = some t
          rw [ho't]
          rfl
        have hle := emrCursor_le r m hc1 _ hwr t hseq
        omega
      have hrp : r = store.worklist_items := by
        rw [hr, hpnil, List.append_nil]
      rw [hrp] at ho
      exact ho1 ho

theorem sync_emr_orders_idempotent (env : SyncEnv) (table : List EmrOrder)
    (store : Store) :
    (sync_emr_orders env table ((sync_emr_orders env table store).2)).1 = 0
    ∧ (sync_emr_orders env table ((sync_emr_orders env table store).2)).2.worklist_items
        = (sync_emr_orders env table store).2.worklist_items := by
  rcases hcommit : insertAllUnique store.worklist_items
      (syncPending env table store) with _ | r
  · rw [sync_store_abort env table store hcommit]
    dsimp only
    constructor
    · rw [sync_count_eq, hcommit]
      rfl
    · rw [sync_items_eq, hcommit]
  · have hfilt := sync_second_filter_nil env table store r hcommit
    have hS1items : (sync_emr_orders env table store).2.worklist_items = r := by
      rw [sync_items_eq, hcommit]
    have hpend2 : syncPending env table ((sync_emr_orders env table store).2) = [] := by
      unfold syncPending
      rw [hS1items, hfilt]
      rfl
    constructor
    · rw [sync_count_eq, hpend2]
      simp [insertAllUnique]
    · rw [sync_items_eq, hpend2, hS1items]
      simp [insertAllUnique]

/-- C1: synchronization is deduplicating and idempotent — when a worklist
item already carries an accession number, a sync run adds no further item
with that accession number (matching orders are skipped), so two orders
deriving the same accession number leave exactly one item; and a second
sync run over the same unchanged order source creates zero new items and
returns 0. -/
theorem C1_sync_dedup_idempotent (env : SyncEnv) (table : List EmrOrder)
    (store : Store) (a : String)
    (h : ∃ w ∈ store.worklist_items, w.accession_number = a) :
    ((sync_emr_orders env table store).2.worklist_items.filter
        (fun w => w.accession_number == a))
      = store.worklist_items.filter (fun w => w.accession_number == a)
    ∧ (sync_emr_orders env table ((sync_emr_orders env table store).2)).1 = 0
    ∧ (sync_emr_orders env table ((sync_emr_orders env table store).2)).2.worklist_items
        = (sync_emr_orders env table store).2.worklist_items := by
  refine ⟨?_, sync_emr_orders_idempotent env table store⟩
  rw [sync_items_eq]
  rcases hcommit : insertAllUnique store.worklist_items
      (syncPending env table store) with _ | r
  · rfl
  · have hr := insertAllUnique_some hcommit
    subst hr
    rw [List.filter_append]
    have hpnil : (syncPending env table store).filter
        (fun w => w.accession_number == a) = [] := by
      rw [List.filter_eq_nil_iff]
      intro w hw hwa
      obtain ⟨o', _, ho'ins, rfl⟩ := syncPending_mem env table store w hw
      obtain ⟨_, hfnone⟩ := orderInserted_elim _ _ ho'ins
      obtain ⟨x, hx, hxa⟩ := h
      have hacc : orderAccessionNumber (o'.PcsOdrSeq.getD 0) = a := eq_of_beq hwa
      apply List.find?_eq_none.mp hfnone x hx
      show (x.accession_number == orderAccessionNumber (o'.PcsOdrSeq.getD 0)) = true
      rw [hacc, hxa]
      exact beq_self_eq_true _
    rw [hpnil, List.append_nil]

/-- Synchronization oracles for the C1 witness. -/
def c1Env : SyncEnv :=
  { romanize := fun _ => none
    parse_odr_dtm := fun _ => none
    now_date := "20250101"
    now_time := "000000" }

/-- EMR order whose sequence number 42 derives accession 00000042. -/
def c1Order : EmrOrder :=
  { PcsOdrSeq := some 42
    PcsOdrDtm := some (.dt "20250101" "100000")
    PcsUntCod := some "CT"
    PcsPatNam := some "KIM"
    PcsChtNum := some "p1"
    PcsBirDte := some "19800101"
    PcsSexTyp := some "M"
    PcsDelFlg := "N" }

/-- Item already carrying accession 00000042, as created by an earlier
sync of the same order. -/
def c1Item : WorklistItem :=
  { patient_id := "p1"
    accession_number := "00000042"
    appointment_date := "20250101"
    appointment_time := "100000"
    modality := "CT"
    aet := none
    study_instance_uid := none
    status := "SCHEDULED"
    emr_order_seq := some 42 }

/-- Store already holding the item for order 42. -/
def c1Store : Store :=
  { patients := []
    worklist_items := [c1Item]
    mpps_tracking := []
    modality_aets := [] }

/-- C1 witness: re-syncing the same one-order source against a store that
already absorbed it keeps exactly one item and creates nothing. -/
theorem C1_sync_dedup_idempotent_witness :
    (∃ w ∈ c1Store.worklist_items, w.accession_number = "00000042")
    ∧ ((sync_emr_orders c1Env [c1Order] c1Store).2.worklist_items.filter
        (fun w => w.accession_number == "00000042"))
      = c1Store.worklist_items.filter (fun w => w.accession_number == "00000042")
    ∧ (sync_emr_orders c1Env [c1Order]
        ((sync_emr_orders c1Env [c1Order] c1Store).2)).1 = 0 :=
  ⟨by decide,
   (C1_sync_dedup_idempotent c1Env [c1Order] c1Store "00000042" (by decide)).1,
   (C1_sync_dedup_idempotent c1Env [c1Order] c1Store "00000042" (by decide)).2.1⟩

/-- C6 amended witness: concrete evaluation with one consumed record. -/
theorem C6_amended_eager_writes_witness :
    (1 : Nat) ≤ 1
    ∧ (handle_find c6Env c6Store c6Req 1).2 = (find_worklist c6Env c6Store c6Req).2.1 :=
  ⟨by decide, (C6_amended_eager_writes c6Env c6Store c6Req 1).1 (by decide)⟩
